import Mathlib

/-!
Shallow embedding of the Data-Migration-Audit reconciliation code
(the audit script: `value_by_value_check`, `count_validation`,
`aggregate_function_validation`, `miscellaneous_discrepancies`,
`get_table_data`, `save_results_in_batches`) together with theorems
settling the specification claims about it.

Modelling conventions:
* Oracle cell values are modelled by the inductive `Value`
  (NULL, integer, string); a fetched row is a `List Value`.
* A Python dict `{k(row): row for row in rows}` is modelled by its key
  list in first-insertion order (`dedupFirst`) and a last-wins lookup
  (`pyDictGet`); Python dict keys iterate in insertion order of the
  first occurrence while a duplicate key keeps the last value.
* Python `set` iteration order is implementation defined (hash order);
  it is modelled here as first-occurrence order of the underlying
  fetched list.  All theorems about discrepancy *sets* are insensitive
  to this choice; the ordering claim is settled by facts that are
  robust to it (no sorting happens anywhere in the code).
* The free-text "Details" CSV field only interpolates data that is
  already carried by the other fields of the record; the interpolated
  data payload (e.g. the full row of a missing-row record) is kept as a
  record field, the surrounding English text is not modelled.
-/

namespace DataMigrationAudit

/-- An Oracle cell value as fetched by the driver: NULL, a number or a
string. -/
inductive Value where
  | vnull : Value
  | vint : Int → Value
  | vstr : String → Value
deriving DecidableEq, Repr

/-- A fetched row: the ordered tuple of its cell values. -/
abbrev Row := List Value

/-- First-occurrence deduplication: the key list of a Python dict built
by inserting the elements in order (a dict keeps the position of the
first insertion of each key), also used to model iteration over
`set(l)`. -/
def dedupFirst {α : Type} [DecidableEq α] : List α → List α
  | [] => []
  | x :: xs => x :: (dedupFirst xs).filter (fun y => y ≠ x)

theorem mem_dedupFirst {α : Type} [DecidableEq α] {a : α} :
    ∀ {l : List α}, a ∈ dedupFirst l ↔ a ∈ l := by
  intro l
  induction l with
  | nil => simp [dedupFirst]
  | cons x xs ih =>
    by_cases hax : a = x
    · subst hax; simp [dedupFirst]
    · simp [dedupFirst, hax, List.mem_filter, ih]

theorem nodup_dedupFirst {α : Type} [DecidableEq α] :
    ∀ (l : List α), (dedupFirst l).Nodup := by
  intro l
  induction l with
  | nil => simp [dedupFirst]
  | cons x xs ih =>
    refine List.Nodup.cons ?_ (List.Nodup.filter _ ih)
    intro hx
    rcases List.mem_filter.mp hx with ⟨_, hne⟩
    simp at hne

theorem dedupFirst_perm {α : Type} [DecidableEq α] {l₁ l₂ : List α}
    (h : l₁.Perm l₂) : (dedupFirst l₁).Perm (dedupFirst l₂) := by
  refine (List.perm_ext_iff_of_nodup (nodup_dedupFirst l₁) (nodup_dedupFirst l₂)).mpr ?_
  intro a
  rw [mem_dedupFirst, mem_dedupFirst]
  exact ⟨fun hm => h.mem_iff.mp hm, fun hm => h.mem_iff.mpr hm⟩

/-- The result of `get_table_data` for one table on one side: the
ordered column-name list from `cursor.description` and the full fetched
row list (`fetchall`). -/
structure TableData where
  columns : List String
  rows : List Row
deriving DecidableEq, Repr

/-- Embedding of `get_table_data` (source lines 1309-1325): executes
`SELECT *` and materializes the whole table with `fetchall`, returning
`(columns, rows)`.  A side of the database is modelled as the map from
table name to the data this fetch produces. -/
def get_table_data (db : String → TableData) (t : String) : List String × List Row :=
  ((db t).columns, (db t).rows)

/-- The key under which `value_by_value_check` stores a row: source line
1891 builds the dict `{tuple(row): row for row in old_data}`, so the key
is the full row tuple. -/
def tupleKey (r : Row) : Row := r

/-- Lookup in the dict `{tuple(row): row}`: Python keeps the last value
inserted for a duplicate key.  The default `[]` is never reached for a
key that is present. -/
def pyDictGet (rows : List Row) (k : Row) : Row :=
  ((rows.filter (fun r => tupleKey r = k)).getLast?).getD []

/-- One record appended to `value_mismatch_results` by
`value_by_value_check`.  `rowData` is the row interpolated into the
Details text of a missing/extra-row record. -/
structure VRecord where
  rtype : String
  table : String
  column : Option String := none
  rowKey : Option Row := none
  oldValue : Option Value := none
  newValue : Option Value := none
  rowData : Option Row := none
deriving DecidableEq, Repr

/-- The single record emitted when the ordered column lists differ
(source lines 1883-1888). -/
def csmRecord (t : String) : VRecord :=
  { rtype := "Column Structure Mismatch", table := t }

/-- A "Missing Row in New" record (source lines 1895-1900). -/
def missingRowRecord (t : String) (r : Row) : VRecord :=
  { rtype := "Missing Row in New", table := t, rowData := some r }

/-- An "Extra Row in New" record (source lines 1903-1908). -/
def extraRowRecord (t : String) (r : Row) : VRecord :=
  { rtype := "Extra Row in New", table := t, rowData := some r }

/-- A "Cell Value Mismatch" record (source lines 1916-1925). -/
def cellMismatchRecord (t c : String) (k : Row) (ov nv : Value) : VRecord :=
  { rtype := "Cell Value Mismatch", table := t, column := some c,
    rowKey := some k, oldValue := some ov, newValue := some nv }

/-- The key list of the dict `{tuple(row): row for row in rows}` built
on source lines 1891-1892. -/
def vKeys (rows : List Row) : List Row :=
  dedupFirst (rows.map tupleKey)

/-- The per-column comparison performed for one key present on both
sides (source lines 1911-1925): `for col_idx, column in
enumerate(old_columns): if old_row[col_idx] != new_row[col_idx]` where
`old_row = old_data_dict[key]` and `new_row = new_data_dict[key]`. -/
def cellChecks (t : String) (oldT newT : TableData) (k : Row) : List VRecord :=
  (List.range oldT.columns.length).filterMap (fun i =>
    if (pyDictGet oldT.rows k).getD i Value.vnull ≠
        (pyDictGet newT.rows k).getD i Value.vnull then
      some (cellMismatchRecord t (oldT.columns.getD i "") k
        ((pyDictGet oldT.rows k).getD i Value.vnull)
        ((pyDictGet newT.rows k).getD i Value.vnull))
    else none)

/-- The records `value_by_value_check` appends for one table (the loop
body, source lines 1877-1925): if the ordered column lists differ, one
Column Structure Mismatch record and `continue`; otherwise rows are
keyed by the full row tuple, keys on exactly one side
(`set(old) - set(new)` and `set(new) - set(old)`) give missing or
extra-row records, and keys on both sides (`intersection`) are compared
column by column. -/
def tableRecords (t : String) (oldT newT : TableData) : List VRecord :=
  if oldT.columns ≠ newT.columns then
    [csmRecord t]
  else
    ((vKeys oldT.rows).filter (fun k => k ∉ vKeys newT.rows)).map
        (fun k => missingRowRecord t (pyDictGet oldT.rows k))
      ++ ((vKeys newT.rows).filter (fun k => k ∉ vKeys oldT.rows)).map
        (fun k => extraRowRecord t (pyDictGet newT.rows k))
      ++ ((vKeys oldT.rows).filter (fun k => k ∈ vKeys newT.rows)).flatMap
        (cellChecks t oldT newT)

/-- Embedding of `value_by_value_check` (source lines 1871-1927): the
full list `value_mismatch_results` accumulated over all processed
tables, later handed as a whole to `save_results_in_batches`. -/
def value_by_value_check (tables : List String)
    (oldDB newDB : String → TableData) : List VRecord :=
  tables.flatMap (fun t =>
    tableRecords t ⟨(get_table_data oldDB t).1, (get_table_data oldDB t).2⟩
      ⟨(get_table_data newDB t).1, (get_table_data newDB t).2⟩)

/-- `main` (source lines 2705-2779) prompts for a chunk size (source
line 1203) but never passes it on: `value_by_value_check` is called
without it (source line 2751).  This definition records the run-level
plumbing of the chunk-size configuration around the data comparison. -/
def run_value_by_value (chunkSize : Nat) (tables : List String)
    (oldDB newDB : String → TableData) : List VRecord :=
  value_by_value_check tables oldDB newDB

theorem getLast?_eq_of_forall_eq {α : Type} {a : α} :
    ∀ {l : List α}, l ≠ [] → (∀ x ∈ l, x = a) → l.getLast? = some a := by
  intro l
  induction l using List.reverseRecOn with
  | nil => intro h _; exact absurd rfl h
  | append_singleton l' x _ =>
    intro _ hall
    rw [List.getLast?_concat]
    have : x = a := hall x (by simp)
    rw [this]

theorem tupleKey_map (rows : List Row) : rows.map tupleKey = rows := by
  rw [show tupleKey = id from rfl, List.map_id]

theorem pyDictGet_self {rows : List Row} {k : Row} (h : k ∈ rows) :
    pyDictGet rows k = k := by
  unfold pyDictGet
  have hne : rows.filter (fun r => tupleKey r = k) ≠ [] := by
    intro hnil
    have : k ∈ rows.filter (fun r => tupleKey r = k) :=
      List.mem_filter.mpr ⟨h, by simp [tupleKey]⟩
    rw [hnil] at this
    exact absurd this (List.not_mem_nil k)
  have hall : ∀ x ∈ rows.filter (fun r => tupleKey r = k), x = k := by
    intro x hx
    have := (List.mem_filter.mp hx).2
    simpa [tupleKey] using this
  rw [getLast?_eq_of_forall_eq hne hall]
  rfl

theorem mem_vKeys {k : Row} {rows : List Row} :
    k ∈ vKeys rows ↔ k ∈ rows := by
  rw [vKeys, tupleKey_map, mem_dedupFirst]

theorem cellChecks_eq_nil {t : String} {oldT newT : TableData} {k : Row}
    (ho : k ∈ oldT.rows) (hn : k ∈ newT.rows) :
    cellChecks t oldT newT k = [] := by
  unfold cellChecks
  rw [pyDictGet_self ho, pyDictGet_self hn]
  rw [List.filterMap_eq_nil_iff]
  intro i _
  rw [if_neg (by simp)]

theorem mem_tableRecords_table {t : String} {oldT newT : TableData}
    {r : VRecord} (h : r ∈ tableRecords t oldT newT) : r.table = t := by
  unfold tableRecords at h
  by_cases hc : oldT.columns ≠ newT.columns
  · rw [if_pos hc] at h
    rw [List.mem_singleton.mp h]
    rfl
  · rw [if_neg hc] at h
    rcases List.mem_append.mp h with h' | h'
    · rcases List.mem_append.mp h' with h'' | h''
      · rcases List.mem_map.mp h'' with ⟨k, _, hk⟩
        rw [← hk]; rfl
      · rcases List.mem_map.mp h'' with ⟨k, _, hk⟩
        rw [← hk]; rfl
    · rcases List.mem_flatMap.mp h' with ⟨k, hkmem, hk⟩
      have hkold : k ∈ oldT.rows :=
        mem_vKeys.mp (List.mem_filter.mp hkmem).1
      have hknew : k ∈ newT.rows :=
        mem_vKeys.mp (of_decide_eq_true (List.mem_filter.mp hkmem).2)
      rw [cellChecks_eq_nil hkold hknew] at hk
      exact absurd hk (List.not_mem_nil r)

theorem mem_tableRecords_rtype_ne_cell {t : String} {oldT newT : TableData}
    {r : VRecord} (h : r ∈ tableRecords t oldT newT) :
    r.rtype ≠ "Cell Value Mismatch" := by
  unfold tableRecords at h
  by_cases hc : oldT.columns ≠ newT.columns
  · rw [if_pos hc] at h
    rw [List.mem_singleton.mp h]
    simp [csmRecord]
  · rw [if_neg hc] at h
    rcases List.mem_append.mp h with h' | h'
    · rcases List.mem_append.mp h' with h'' | h''
      · rcases List.mem_map.mp h'' with ⟨k, _, hk⟩
        rw [← hk]; simp [missingRowRecord]
      · rcases List.mem_map.mp h'' with ⟨k, _, hk⟩
        rw [← hk]; simp [extraRowRecord]
    · exfalso
      rcases List.mem_flatMap.mp h' with ⟨k, hkmem, hk⟩
      have hkold : k ∈ oldT.rows :=
        mem_vKeys.mp (List.mem_filter.mp hkmem).1
      have hknew : k ∈ newT.rows :=
        mem_vKeys.mp (of_decide_eq_true (List.mem_filter.mp hkmem).2)
      rw [cellChecks_eq_nil hkold hknew] at hk
      exact absurd hk (List.not_mem_nil r)

/-- C10: the row-level comparison never emits a Cell Value Mismatch
record: rows are keyed by the full row tuple, so a key present on both
sides denotes rows that are equal in every column, and the per-column
comparison branch guarded by key equality never fires. -/
theorem c10_no_cell_mismatch (tables : List String)
    (oldDB newDB : String → TableData) :
    (value_by_value_check tables oldDB newDB).countP
      (fun r => r.rtype = "Cell Value Mismatch") = 0 := by
  rw [List.countP_eq_zero]
  intro r hr
  rcases List.mem_flatMap.mp hr with ⟨t, _, hrt⟩
  have : r.rtype ≠ "Cell Value Mismatch" := mem_tableRecords_rtype_ne_cell hrt
  simpa using this

/-- The spec's end-to-end ORDERS example, old side: rows (1,'A',100)
and (2,'B',200) with columns ID, NAME, AMOUNT. -/
def ordersOldData : TableData :=
  ⟨["ID", "NAME", "AMOUNT"],
   [[Value.vint 1, Value.vstr "A", Value.vint 100],
    [Value.vint 2, Value.vstr "B", Value.vint 200]]⟩

/-- The spec's end-to-end ORDERS example, new side: rows (1,'A',150)
and (3,'C',300). -/
def ordersNewData : TableData :=
  ⟨["ID", "NAME", "AMOUNT"],
   [[Value.vint 1, Value.vstr "A", Value.vint 150],
    [Value.vint 3, Value.vstr "C", Value.vint 300]]⟩

/-- An empty table, the value `get_table_data` produces on error or for
an unknown table. -/
def emptyTableData : TableData := ⟨[], []⟩

/-- The old side of the ORDERS example database. -/
def ordersOldDB : String → TableData :=
  fun t => if t = "ORDERS" then ordersOldData else emptyTableData

/-- The new side of the ORDERS example database. -/
def ordersNewDB : String → TableData :=
  fun t => if t = "ORDERS" then ordersNewData else emptyTableData

/-- C1 counterexample: on the spec's own ORDERS example the code emits
zero Cell Value Mismatch records, not exactly one — the changed row
(1,'A',100)→(1,'A',150) is keyed by its full tuple on each side, so its
two versions are distinct keys and it surfaces as one missing-row plus
one extra-row record instead.  The emitted list is two missing-row
records (both old rows) followed by two extra-row records (both new
rows). -/
theorem c1_counterexample :
    ¬ ((value_by_value_check ["ORDERS"] ordersOldDB ordersNewDB).countP
        (fun r => r.rtype = "Cell Value Mismatch") = 1) ∧
    (value_by_value_check ["ORDERS"] ordersOldDB ordersNewDB).countP
        (fun r => r.rtype = "Cell Value Mismatch") = 0 ∧
    (value_by_value_check ["ORDERS"] ordersOldDB ordersNewDB).countP
        (fun r => r.rtype = "Missing Row in New") = 2 ∧
    (value_by_value_check ["ORDERS"] ordersOldDB ordersNewDB).countP
        (fun r => r.rtype = "Extra Row in New") = 2 := by
  refine ⟨?_, ?_, ?_, ?_⟩ <;> decide

theorem vKeys_eq_dedupFirst (rows : List Row) :
    vKeys rows = dedupFirst rows := by
  rw [vKeys, tupleKey_map]

/-- C1 amended: when the ordered column lists of the two sides agree,
the row-level comparison keys every row by its full tuple, so the
emitted records are exactly one Missing Row in New record per distinct
old row absent from the new side followed by one Extra Row in New
record per distinct new row absent from the old side; no Cell Value
Mismatch record is ever emitted.  A row whose non-key column changed is
therefore reported as one missing-row plus one extra-row record. -/
theorem c1_amended (t : String) (oldT newT : TableData)
    (h : oldT.columns = newT.columns) :
    tableRecords t oldT newT =
      ((dedupFirst oldT.rows).filter (fun r => r ∉ newT.rows)).map
          (fun r => missingRowRecord t r)
        ++ ((dedupFirst newT.rows).filter (fun r => r ∉ oldT.rows)).map
          (fun r => extraRowRecord t r) := by
  unfold tableRecords
  rw [if_neg (by simpa using h)]
  have hcell :
      ((vKeys oldT.rows).filter (fun k => k ∈ vKeys newT.rows)).flatMap
        (cellChecks t oldT newT) = [] := by
    rw [List.flatMap_eq_nil_iff]
    intro k hk
    exact cellChecks_eq_nil
      (mem_vKeys.mp (List.mem_filter.mp hk).1)
      (mem_vKeys.mp (of_decide_eq_true (List.mem_filter.mp hk).2))
  have hmiss :
      ((vKeys oldT.rows).filter (fun k => k ∉ vKeys newT.rows)).map
        (fun k => missingRowRecord t (pyDictGet oldT.rows k)) =
      ((dedupFirst oldT.rows).filter (fun r => r ∉ newT.rows)).map
        (fun r => missingRowRecord t r) := by
    simp only [vKeys_eq_dedupFirst, mem_dedupFirst]
    exact List.map_congr_left (fun k hk =>
      congrArg (missingRowRecord t)
        (pyDictGet_self (mem_dedupFirst.mp (List.mem_filter.mp hk).1)))
  have hextra :
      ((vKeys newT.rows).filter (fun k => k ∉ vKeys oldT.rows)).map
        (fun k => extraRowRecord t (pyDictGet newT.rows k)) =
      ((dedupFirst newT.rows).filter (fun r => r ∉ oldT.rows)).map
        (fun r => extraRowRecord t r) := by
    simp only [vKeys_eq_dedupFirst, mem_dedupFirst]
    exact List.map_congr_left (fun k hk =>
      congrArg (extraRowRecord t)
        (pyDictGet_self (mem_dedupFirst.mp (List.mem_filter.mp hk).1)))
  rw [hmiss, hextra, hcell, List.append_nil]

/-- C1 amended, witnessed on the spec's ORDERS example: both old rows
are reported missing, both new rows are reported extra. -/
theorem c1_amended_witness :
    ordersOldData.columns = ordersNewData.columns ∧
    tableRecords "ORDERS" ordersOldData ordersNewData =
      ((dedupFirst ordersOldData.rows).filter
          (fun r => r ∉ ordersNewData.rows)).map
        (fun r => missingRowRecord "ORDERS" r)
      ++ ((dedupFirst ordersNewData.rows).filter
          (fun r => r ∉ ordersOldData.rows)).map
        (fun r => extraRowRecord "ORDERS" r) :=
  ⟨rfl, c1_amended "ORDERS" ordersOldData ordersNewData rfl⟩

theorem value_by_value_check_eq (tables : List String)
    (oldDB newDB : String → TableData) :
    value_by_value_check tables oldDB newDB =
      tables.flatMap (fun t => tableRecords t (oldDB t) (newDB t)) := rfl

/-- Modelled from the spec: "Key derivation: primary-key columns in
declared order; fallback is the full row tuple when no primary key
exists."  `pk` lists the positions of the declared primary-key columns
in declared order (empty when the table has no primary key).  This is
the key-derivation rule the claim attributes to the code; the code
itself (source line 1891) has no such rule. -/
def specRowKey (pk : List Nat) (r : Row) : Row :=
  if pk = [] then r else pk.map (fun i => r.getD i Value.vnull)

/-- The dict lookup of the spec-keyed comparison variant. -/
def specDictGet (pk : List Nat) (rows : List Row) (k : Row) : Row :=
  ((rows.filter (fun r => specRowKey pk r = k)).getLast?).getD []

/-- The key list of the spec-keyed comparison variant. -/
def specKeys (pk : List Nat) (rows : List Row) : List Row :=
  dedupFirst (rows.map (specRowKey pk))

/-- The per-column comparison of the spec-keyed comparison variant. -/
def specCellChecks (pk : List Nat) (t : String) (oldT newT : TableData)
    (k : Row) : List VRecord :=
  (List.range oldT.columns.length).filterMap (fun i =>
    if (specDictGet pk oldT.rows k).getD i Value.vnull ≠
        (specDictGet pk newT.rows k).getD i Value.vnull then
      some (cellMismatchRecord t (oldT.columns.getD i "") k
        ((specDictGet pk oldT.rows k).getD i Value.vnull)
        ((specDictGet pk newT.rows k).getD i Value.vnull))
    else none)

/-- Modelled from the spec: the per-table comparison as C2 describes
it, identical to `tableRecords` except that rows are keyed by
`specRowKey pk` (primary-key columns in declared order, full-tuple
fallback when `pk = []`). -/
def tableRecordsSpecKeyed (pk : List Nat) (t : String)
    (oldT newT : TableData) : List VRecord :=
  if oldT.columns ≠ newT.columns then
    [csmRecord t]
  else
    ((specKeys pk oldT.rows).filter (fun k => k ∉ specKeys pk newT.rows)).map
        (fun k => missingRowRecord t (specDictGet pk oldT.rows k))
      ++ ((specKeys pk newT.rows).filter (fun k => k ∉ specKeys pk oldT.rows)).map
        (fun k => extraRowRecord t (specDictGet pk newT.rows k))
      ++ ((specKeys pk oldT.rows).filter (fun k => k ∈ specKeys pk newT.rows)).flatMap
        (specCellChecks pk t oldT newT)

/-- C2 counterexample: on the ORDERS table, whose first column ID is
the declared primary key (positions `[0]`), the code does not key rows
by the primary-key column: the key of row (1,'A',100) is the full
tuple, not (1,), and the code's output on the ORDERS example differs
from the output of the primary-key-keyed comparison the claim
describes (which would emit exactly one Cell Value Mismatch; the code
emits none). -/
theorem c2_counterexample :
    tupleKey [Value.vint 1, Value.vstr "A", Value.vint 100] ≠
      specRowKey [0] [Value.vint 1, Value.vstr "A", Value.vint 100] ∧
    tableRecords "ORDERS" ordersOldData ordersNewData ≠
      tableRecordsSpecKeyed [0] "ORDERS" ordersOldData ordersNewData ∧
    (tableRecordsSpecKeyed [0] "ORDERS" ordersOldData ordersNewData).countP
      (fun r => r.rtype = "Cell Value Mismatch") = 1 ∧
    (tableRecords "ORDERS" ordersOldData ordersNewData).countP
      (fun r => r.rtype = "Cell Value Mismatch") = 0 := by
  refine ⟨?_, ?_, ?_, ?_⟩ <;> decide

/-- C2 amended: the row-level comparison always keys rows by the full
row tuple, for every table: it never consults the declared primary key
(`get_primary_key_columns` is not called by `value_by_value_check`),
so it behaves exactly like the spec's key derivation applied with an
empty primary key everywhere — the no-primary-key fallback. -/
theorem c2_amended (t : String) (oldT newT : TableData) :
    tableRecords t oldT newT = tableRecordsSpecKeyed [] t oldT newT := by
  have hkey : specRowKey [] = tupleKey := by
    funext r
    rw [specRowKey, if_pos rfl, tupleKey]
  have hget : specDictGet [] = pyDictGet := by
    funext rows k
    rw [specDictGet, pyDictGet, hkey]
  have hkeys : specKeys [] = vKeys := by
    funext rows
    rw [specKeys, vKeys, hkey]
  have hcell : specCellChecks [] = cellChecks := by
    funext t' oldT' newT' k
    rw [specCellChecks, cellChecks, hget]
  rw [tableRecords, tableRecordsSpecKeyed, hget, hkeys, hcell]

/-- C3: the discrepancy list produced for a fixed pair of table states
is identical for every configured chunk size: the chunk-size
configuration read at the prompt is never passed into
`value_by_value_check`, so it cannot change which discrepancies are
emitted (in particular the outputs for chunk sizes 1, 7 and 10000
coincide). -/
theorem c3_chunk_size_independent (cs₁ cs₂ : Nat) (tables : List String)
    (oldDB newDB : String → TableData) :
    run_value_by_value cs₁ tables oldDB newDB =
      run_value_by_value cs₂ tables oldDB newDB := rfl

theorem filter_flatMap_eq_of_count_one {α β : Type} [DecidableEq α]
    (tag : β → α) (t : α) :
    ∀ (l : List α) (f : α → List β),
      (∀ a : α, ∀ b ∈ f a, tag b = a) → l.count t = 1 →
      (l.flatMap f).filter (fun b => tag b = t) = f t := by
  intro l
  induction l with
  | nil => intro f _ h; simp at h
  | cons a l ih =>
    intro f htag h
    rw [List.count_cons] at h
    rw [List.flatMap_cons, List.filter_append]
    by_cases hat : a = t
    · subst hat
      simp only [beq_self_eq_true, if_true] at h
      have hl : l.count a = 0 := by omega
      have hnotmem : a ∉ l := List.count_eq_zero.mp hl
      have h1 : (f a).filter (fun b => tag b = a) = f a := by
        rw [List.filter_eq_self]
        intro b hb
        simp [htag a b hb]
      have h2 : (l.flatMap f).filter (fun b => tag b = a) = [] := by
        rw [List.filter_eq_nil_iff]
        intro b hb
        rcases List.mem_flatMap.mp hb with ⟨a', ha', hba'⟩
        have : tag b = a' := htag a' b hba'
        simp only [this]
        simp only [decide_eq_true_eq]
        intro hcontra
        exact hnotmem (hcontra ▸ ha')
      rw [h1, h2, List.append_nil]
    · simp only [beq_iff_eq, hat, if_false] at h
      have h1 : (f a).filter (fun b => tag b = t) = [] := by
        rw [List.filter_eq_nil_iff]
        intro b hb
        have : tag b = a := htag a b hb
        simp only [this, decide_eq_true_eq]
        exact hat
      rw [h1, List.nil_append]
      exact ih f htag (by omega)

/-- C4: for a table (appearing once in the processed table list) whose
ordered column-name sequences differ between the two sides, the
comparison emits exactly one Column Structure Mismatch record for that
table and nothing else — no Missing Row, Extra Row, or Cell Value
Mismatch record is produced for it. -/
theorem c4_column_mismatch_skips_rows (tables : List String)
    (oldDB newDB : String → TableData) (t : String)
    (h1 : tables.count t = 1)
    (h2 : (oldDB t).columns ≠ (newDB t).columns) :
    (value_by_value_check tables oldDB newDB).filter
      (fun r => r.table = t) = [csmRecord t] := by
  rw [value_by_value_check_eq]
  rw [filter_flatMap_eq_of_count_one (fun r => r.table) t tables
    (fun t' => tableRecords t' (oldDB t') (newDB t'))
    (fun a b hb => mem_tableRecords_table hb) h1]
  rw [tableRecords, if_pos h2]

/-- A database side whose table T has column list [A], for the C4
witness. -/
def colsOldDB : String → TableData :=
  fun t => if t = "T" then ⟨["A"], []⟩ else emptyTableData

/-- A database side whose table T has column list [B], for the C4
witness. -/
def colsNewDB : String → TableData :=
  fun t => if t = "T" then ⟨["B"], []⟩ else emptyTableData

/-- C4 witnessed on a concrete table with differing column lists. -/
theorem c4_witness :
    ["T"].count "T" = 1 ∧
    (colsOldDB "T").columns ≠ (colsNewDB "T").columns ∧
    (value_by_value_check ["T"] colsOldDB colsNewDB).filter
      (fun r => r.table = "T") = [csmRecord "T"] :=
  ⟨by decide, by decide,
    c4_column_mismatch_skips_rows ["T"] colsOldDB colsNewDB "T"
      (by decide) (by decide)⟩

/-- A record of the table-level structural classification (the Type
and Table fields of a `count_validation` /
`miscellaneous_discrepancies` discrepancy row; the remaining count
fields of a missing/extra-table row are empty strings). -/
structure CRecord where
  rtype : String
  table : String
deriving DecidableEq, Repr

/-- `set(old_tables) - set(new_tables)` (source line 1366; same
computation at source line 2464). -/
def missing_tables (old new : List String) : List String :=
  (dedupFirst old).filter (fun t => t ∉ new)

/-- `set(new_tables) - set(old_tables)` (source line 1367; same
computation at source line 2465). -/
def extra_tables (old new : List String) : List String :=
  (dedupFirst new).filter (fun t => t ∉ old)

/-- `set(old_tables).intersection(new_tables)` (source line 1396; same
computation at source line 2466): the common tables processed further. -/
def common_tables (old new : List String) : List String :=
  (dedupFirst old).filter (fun t => t ∈ new)

/-- The Missing Table / Extra Table discrepancy records appended by
`count_validation` (source lines 1369-1393). -/
def count_validation_table_classification (old new : List String) :
    List CRecord :=
  (missing_tables old new).map (fun t => ⟨"Missing Table", t⟩)
    ++ (extra_tables old new).map (fun t => ⟨"Extra Table", t⟩)

theorem mem_missing_tables {old new : List String} {t : String} :
    t ∈ missing_tables old new ↔ t ∈ old ∧ t ∉ new := by
  rw [missing_tables, List.mem_filter, mem_dedupFirst]
  simp

theorem mem_extra_tables {old new : List String} {t : String} :
    t ∈ extra_tables old new ↔ t ∈ new ∧ t ∉ old := by
  rw [extra_tables, List.mem_filter, mem_dedupFirst]
  simp

theorem mem_common_tables {old new : List String} {t : String} :
    t ∈ common_tables old new ↔ t ∈ old ∧ t ∈ new := by
  rw [common_tables, List.mem_filter, mem_dedupFirst]
  simp

theorem mem_classification_missing {old new : List String} {t : String} :
    (⟨"Missing Table", t⟩ : CRecord) ∈
        count_validation_table_classification old new ↔
      t ∈ missing_tables old new := by
  rw [count_validation_table_classification, List.mem_append]
  constructor
  · rintro (h | h)
    · rcases List.mem_map.mp h with ⟨a, ha, hae⟩
      injection hae with _ h2
      rw [← h2]
      exact ha
    · rcases List.mem_map.mp h with ⟨a, _, hae⟩
      injection hae with h1 _
      exact absurd h1 (by decide)
  · intro h
    exact Or.inl (List.mem_map.mpr ⟨t, h, rfl⟩)

theorem mem_classification_extra {old new : List String} {t : String} :
    (⟨"Extra Table", t⟩ : CRecord) ∈
        count_validation_table_classification old new ↔
      t ∈ extra_tables old new := by
  rw [count_validation_table_classification, List.mem_append]
  constructor
  · rintro (h | h)
    · rcases List.mem_map.mp h with ⟨a, _, hae⟩
      injection hae with h1 _
      exact absurd h1 (by decide)
    · rcases List.mem_map.mp h with ⟨a, ha, hae⟩
      injection hae with _ h2
      rw [← h2]
      exact ha
  · intro h
    exact Or.inr (List.mem_map.mpr ⟨t, h, rfl⟩)

/-- C5: for any old-side table-name list A and new-side list B, the
structural comparison emits a Missing Table record exactly for the
names in A−B, an Extra Table record exactly for the names in B−A, and
processes further exactly the names in A∩B; the three classifications
are pairwise disjoint. -/
theorem c5_table_classification (old new : List String) (t : String) :
    ((⟨"Missing Table", t⟩ : CRecord) ∈
        count_validation_table_classification old new ↔
      t ∈ old ∧ t ∉ new) ∧
    ((⟨"Extra Table", t⟩ : CRecord) ∈
        count_validation_table_classification old new ↔
      t ∈ new ∧ t ∉ old) ∧
    (t ∈ common_tables old new ↔ t ∈ old ∧ t ∈ new) ∧
    ¬(t ∈ missing_tables old new ∧ t ∈ extra_tables old new) ∧
    ¬(t ∈ missing_tables old new ∧ t ∈ common_tables old new) ∧
    ¬(t ∈ extra_tables old new ∧ t ∈ common_tables old new) := by
  refine ⟨?_, ?_, mem_common_tables, ?_, ?_, ?_⟩
  · rw [mem_classification_missing, mem_missing_tables]
  · rw [mem_classification_extra, mem_extra_tables]
  · rintro ⟨h1, h2⟩
    exact (mem_missing_tables.mp h1).2 (mem_extra_tables.mp h2).1
  · rintro ⟨h1, h2⟩
    exact (mem_missing_tables.mp h1).2 (mem_common_tables.mp h2).2
  · rintro ⟨h1, h2⟩
    exact (mem_extra_tables.mp h1).2 (mem_common_tables.mp h2).1

/-- One discrepancy row of `miscellaneous_discrepancies` (Type, Table,
Object fields; the Details free text repeats the object name). -/
structure MRecord where
  rtype : String
  table : String
  obj : String
deriving DecidableEq, Repr

/-- The catalog lists returned by the adapter queries that
`miscellaneous_discrepancies` issues (`get_table_list`, `get_indexes`,
`get_triggers`, `get_sequences`, `get_views`).  The index, trigger,
sequence and view queries have no ORDER BY clause, so the order of
these lists is whatever the database returns. -/
structure MiscEnv where
  oldTables : List String
  newTables : List String
  oldIndexes : String → List String
  newIndexes : String → List String
  oldTriggers : String → List String
  newTriggers : String → List String
  oldSequences : List String
  newSequences : List String
  oldViews : List String
  newViews : List String

/-- `set(a) - set(b)` as iterated by the source's `for` loops:
iteration over a Python set, modelled in first-occurrence order of the
fetched list (the real order is hash-dependent; no sorting occurs in
the code under either reading). -/
def pySetDiff (a b : List String) : List String :=
  (dedupFirst a).filter (fun x => x ∉ b)

/-- The index/trigger records emitted for one common table (source
lines 2486-2524). -/
def perTableMiscRecords (e : MiscEnv) (t : String) : List MRecord :=
  (pySetDiff (e.oldIndexes t) (e.newIndexes t)).map
      (fun i => ⟨"Missing Index", t, i⟩)
    ++ (pySetDiff (e.newIndexes t) (e.oldIndexes t)).map
      (fun i => ⟨"Extra Index", t, i⟩)
    ++ (pySetDiff (e.oldTriggers t) (e.newTriggers t)).map
      (fun g => ⟨"Missing Trigger", t, g⟩)
    ++ (pySetDiff (e.newTriggers t) (e.oldTriggers t)).map
      (fun g => ⟨"Extra Trigger", t, g⟩)

/-- Embedding of `miscellaneous_discrepancies` (source lines
2457-2589): the discrepancy list in emission order — missing/extra
tables, then per common table missing/extra indexes and triggers, then
missing/extra sequences and views. -/
def miscellaneous_discrepancies (e : MiscEnv) : List MRecord :=
  (pySetDiff e.oldTables e.newTables).map (fun t => ⟨"Missing Table", t, ""⟩)
    ++ (pySetDiff e.newTables e.oldTables).map (fun t => ⟨"Extra Table", t, ""⟩)
    ++ (common_tables e.oldTables e.newTables).flatMap (perTableMiscRecords e)
    ++ (pySetDiff e.oldSequences e.newSequences).map
      (fun s => ⟨"Missing Sequence", "", s⟩)
    ++ (pySetDiff e.newSequences e.oldSequences).map
      (fun s => ⟨"Extra Sequence", "", s⟩)
    ++ (pySetDiff e.oldViews e.newViews).map (fun v => ⟨"Missing View", "", v⟩)
    ++ (pySetDiff e.newViews e.oldViews).map (fun v => ⟨"Extra View", "", v⟩)

/-- A catalog state where the old side of table T has indexes B_IDX and
A_IDX, returned by the adapter in that order, and the new side has
none. -/
def miscEnvA : MiscEnv :=
  ⟨["T"], ["T"], fun _ => ["B_IDX", "A_IDX"], fun _ => [],
   fun _ => [], fun _ => [], [], [], [], []⟩

/-- The same catalog state as `miscEnvA` except that the index query
returns the two index names in the opposite order. -/
def miscEnvB : MiscEnv :=
  ⟨["T"], ["T"], fun _ => ["A_IDX", "B_IDX"], fun _ => [],
   fun _ => [], fun _ => [], [], [], [], []⟩

/-- C6 counterexample: the emitted sequence is not sorted
lexicographically and does depend on the order in which the catalog
queries return the names — for the same two catalog states, presenting
the index names as (B_IDX, A_IDX) yields the record sequence (Missing
Index B_IDX, Missing Index A_IDX), which is not in lexicographic order
and differs from the sequence obtained when the query returns (A_IDX,
B_IDX). -/
theorem c6_counterexample :
    miscellaneous_discrepancies miscEnvA ≠ miscellaneous_discrepancies miscEnvB ∧
    (miscellaneous_discrepancies miscEnvA).map (fun r => r.obj) =
      ["B_IDX", "A_IDX"] ∧
    ¬ ((miscellaneous_discrepancies miscEnvA).map (fun r => r.obj)).Sorted
      (· ≤ ·) := by
  refine ⟨by decide, by decide, ?_⟩
  intro h
  have hmap : (miscellaneous_discrepancies miscEnvA).map (fun r => r.obj) =
      ["B_IDX", "A_IDX"] := by decide
  rw [hmap] at h
  have := List.rel_of_sorted_cons h "A_IDX" (by simp)
  rw [String.le_iff_toList_le] at this
  revert this
  decide

theorem pySetDiff_perm {a₁ a₂ b₁ b₂ : List String}
    (ha : a₁.Perm a₂) (hb : b₁.Perm b₂) :
    (pySetDiff a₁ b₁).Perm (pySetDiff a₂ b₂) := by
  unfold pySetDiff
  have hpred : (fun x : String => decide (x ∉ b₁)) =
      (fun x : String => decide (x ∉ b₂)) :=
    funext fun x => by simp [hb.mem_iff]
  rw [hpred]
  exact (dedupFirst_perm ha).filter _

theorem common_tables_perm {a₁ a₂ b₁ b₂ : List String}
    (ha : a₁.Perm a₂) (hb : b₁.Perm b₂) :
    (common_tables a₁ b₁).Perm (common_tables a₂ b₂) := by
  unfold common_tables
  have hpred : (fun x : String => decide (x ∈ b₁)) =
      (fun x : String => decide (x ∈ b₂)) :=
    funext fun x => by simp [hb.mem_iff]
  rw [hpred]
  exact (dedupFirst_perm ha).filter _

/-- C6 amended: the collection of records `miscellaneous_discrepancies`
emits is independent of adapter return order only up to permutation —
componentwise-permuted catalog query results yield a permutation of the
record list — but the emission sequence itself is not sorted
lexicographically and is not invariant under adapter return order (the
code iterates Python sets and never sorts). -/
theorem c6_amended (e₁ e₂ : MiscEnv)
    (ht : e₁.oldTables.Perm e₂.oldTables)
    (ht' : e₁.newTables.Perm e₂.newTables)
    (hi : ∀ t, (e₁.oldIndexes t).Perm (e₂.oldIndexes t))
    (hi' : ∀ t, (e₁.newIndexes t).Perm (e₂.newIndexes t))
    (hg : ∀ t, (e₁.oldTriggers t).Perm (e₂.oldTriggers t))
    (hg' : ∀ t, (e₁.newTriggers t).Perm (e₂.newTriggers t))
    (hs : e₁.oldSequences.Perm e₂.oldSequences)
    (hs' : e₁.newSequences.Perm e₂.newSequences)
    (hv : e₁.oldViews.Perm e₂.oldViews)
    (hv' : e₁.newViews.Perm e₂.newViews) :
    (miscellaneous_discrepancies e₁).Perm (miscellaneous_discrepancies e₂) := by
  unfold miscellaneous_discrepancies
  have hpt : ∀ t, (perTableMiscRecords e₁ t).Perm (perTableMiscRecords e₂ t) := by
    intro t
    unfold perTableMiscRecords
    exact ((((pySetDiff_perm (hi t) (hi' t)).map _).append
      ((pySetDiff_perm (hi' t) (hi t)).map _)).append
      ((pySetDiff_perm (hg t) (hg' t)).map _)).append
      ((pySetDiff_perm (hg' t) (hg t)).map _)
  have hflat : ((common_tables e₁.oldTables e₁.newTables).flatMap
        (perTableMiscRecords e₁)).Perm
      ((common_tables e₂.oldTables e₂.newTables).flatMap
        (perTableMiscRecords e₂)) :=
    (List.Perm.flatMap_left _ (fun t _ => hpt t)).trans
      ((common_tables_perm ht ht').flatMap_right _)
  exact (((((((pySetDiff_perm ht ht').map _).append
    ((pySetDiff_perm ht' ht).map _)).append hflat).append
    ((pySetDiff_perm hs hs').map _)).append
    ((pySetDiff_perm hs' hs).map _)).append
    ((pySetDiff_perm hv hv').map _)).append
    ((pySetDiff_perm hv' hv).map _)

/-- C6 amended, witnessed on the two concrete catalog states of the
counterexample: with the index names returned in either order, the
emitted records are a permutation of one another. -/
theorem c6_amended_witness :
    (miscellaneous_discrepancies miscEnvA).Perm
      (miscellaneous_discrepancies miscEnvB) :=
  c6_amended miscEnvA miscEnvB (List.Perm.refl _) (List.Perm.refl _)
    (fun _ => List.Perm.swap "A_IDX" "B_IDX" [])
    (fun _ => List.Perm.refl _) (fun _ => List.Perm.refl _)
    (fun _ => List.Perm.refl _) (List.Perm.refl _) (List.Perm.refl _)
    (List.Perm.refl _) (List.Perm.refl _)

/-- One entry of the dict returned by `get_table_schema`:
`column_name -> (data_type, data_length)` in column-id order (column
names are unique within an Oracle table, so the list models the dict's
items in order). -/
structure ColumnDef where
  name : String
  dtype : String
  dlen : Nat
deriving DecidableEq, Repr

/-- The numeric-type test of `aggregate_function_validation` (source
lines 1686, 1688): membership in ("NUMBER", "FLOAT", "DECIMAL"). -/
def isNumericType (dt : String) : Bool :=
  dt == "NUMBER" || dt == "FLOAT" || dt == "DECIMAL"

/-- Dict lookup `new_table_schema[c]` (last value wins for a duplicate
key, which cannot occur for column names). -/
def dictGetCol (s : List ColumnDef) (c : String) : Option ColumnDef :=
  (s.filter (fun d => d.name = c)).getLast?

/-- `numerical_columns` (source lines 1684-1689): the old-schema
columns whose declared type is numeric and which exist with a numeric
type in the new schema. -/
def numerical_columns (oldS newS : List ColumnDef) : List String :=
  (oldS.filter (fun d =>
    isNumericType d.dtype &&
      (match dictGetCol newS d.name with
       | some nd => isNumericType nd.dtype
       | none => false))).map (fun d => d.name)

/-- The outcome of one `SELECT SUM(col), AVG(col)` query: the (SUM,
AVG) pair, or a raised database error. -/
inductive QueryResult where
  | ok : Value → Value → QueryResult
  | err : String → QueryResult
deriving DecidableEq, Repr

/-- The environment `aggregate_function_validation` runs against: the
common-table list it is called with and, for each table, the two
schemas and the outcome of the aggregate query on each side. -/
structure AggEnv where
  tables : List String
  oldSchema : String → List ColumnDef
  newSchema : String → List ColumnDef
  oldAgg : String → String → QueryResult
  newAgg : String → String → QueryResult

/-- One discrepancy row of `aggregate_function_validation` (Type,
Table, Column and the four aggregate values; the error row leaves the
four values empty, source lines 1731-1740). -/
structure ARecord where
  rtype : String
  table : String
  column : String
  oldSum : Option Value := none
  newSum : Option Value := none
  oldAvg : Option Value := none
  newAvg : Option Value := none
deriving DecidableEq, Repr

/-- The "Error" record appended when the SUM/AVG query for one column
raises (source lines 1730-1740). -/
def aggErrorRecord (t c : String) : ARecord :=
  { rtype := "Error", table := t, column := c }

/-- The "Aggregate Mismatch" record carrying all four values (source
lines 1703-1716). -/
def aggMismatchRecord (t c : String) (os ns oa na : Value) : ARecord :=
  { rtype := "Aggregate Mismatch", table := t, column := c,
    oldSum := some os, newSum := some ns,
    oldAvg := some oa, newAvg := some na }

/-- The discrepancy records appended for one column of one table (the
try/except body, source lines 1691-1740): if the old-side query raises,
one Error record (the new-side query is never issued); else if the
new-side query raises, one Error record; else a mismatch record exactly
when the SUMs or the AVGs differ. -/
def aggColumnDiscrepancies (e : AggEnv) (t c : String) : List ARecord :=
  match e.oldAgg t c with
  | .err _ => [aggErrorRecord t c]
  | .ok os oa =>
    match e.newAgg t c with
    | .err _ => [aggErrorRecord t c]
    | .ok ns na =>
      if os ≠ ns ∨ oa ≠ na then [aggMismatchRecord t c os ns oa na] else []

/-- Embedding of `aggregate_function_validation`'s discrepancy list
(source lines 1673-1740): the per-column try/except keeps the loops
over the remaining columns and tables running after a failure. -/
def aggregate_function_validation (e : AggEnv) : List ARecord :=
  e.tables.flatMap (fun t =>
    (numerical_columns (e.oldSchema t) (e.newSchema t)).flatMap
      (aggColumnDiscrepancies e t))

/-- Whether the aggregate query pair for one column raises on either
side. -/
def aggFailed (e : AggEnv) (t c : String) : Bool :=
  match e.oldAgg t c, e.newAgg t c with
  | .err _, _ => true
  | .ok _ _, .err _ => true
  | .ok _ _, .ok _ _ => false

theorem mem_aggCol_table {e : AggEnv} {t c : String} {r : ARecord}
    (h : r ∈ aggColumnDiscrepancies e t c) : r.table = t := by
  unfold aggColumnDiscrepancies at h
  split at h
  · rw [List.mem_singleton.mp h]; rfl
  · split at h
    · rw [List.mem_singleton.mp h]; rfl
    · split at h
      · rw [List.mem_singleton.mp h]; rfl
      · exact absurd h (List.not_mem_nil r)

theorem mem_aggCol_column {e : AggEnv} {t c : String} {r : ARecord}
    (h : r ∈ aggColumnDiscrepancies e t c) : r.column = c := by
  unfold aggColumnDiscrepancies at h
  split at h
  · rw [List.mem_singleton.mp h]; rfl
  · split at h
    · rw [List.mem_singleton.mp h]; rfl
    · split at h
      · rw [List.mem_singleton.mp h]; rfl
      · exact absurd h (List.not_mem_nil r)

/-- C7: a query failure on one column of one table yields exactly one
error record carrying that table and column, and the records emitted
for any column are exactly its own per-column records — so a failure
aborts neither the remaining columns nor the remaining tables; for a
column whose queries succeed on both sides, a mismatch record carrying
all four values is emitted if and only if the SUMs or the AVGs
differ. -/
theorem c7_aggregate_validation (e : AggEnv) (t c : String)
    (h1 : e.tables.count t = 1)
    (h2 : (numerical_columns (e.oldSchema t) (e.newSchema t)).count c = 1) :
    ((aggregate_function_validation e).filter
        (fun r => r.table = t)).filter (fun r => r.column = c) =
      aggColumnDiscrepancies e t c ∧
    (aggFailed e t c = true →
      aggColumnDiscrepancies e t c = [aggErrorRecord t c]) ∧
    (∀ os oa ns na, e.oldAgg t c = .ok os oa → e.newAgg t c = .ok ns na →
      ((aggColumnDiscrepancies e t c =
          [aggMismatchRecord t c os ns oa na]) ↔ (os ≠ ns ∨ oa ≠ na)) ∧
      ((aggColumnDiscrepancies e t c = []) ↔ (os = ns ∧ oa = na))) := by
  refine ⟨?_, ?_, ?_⟩
  · rw [aggregate_function_validation]
    rw [filter_flatMap_eq_of_count_one (fun r => r.table) t e.tables
      (fun t' => (numerical_columns (e.oldSchema t') (e.newSchema t')).flatMap
        (aggColumnDiscrepancies e t'))
      (fun a b hb => by
        rcases List.mem_flatMap.mp hb with ⟨c', _, hc'⟩
        exact mem_aggCol_table hc') h1]
    exact filter_flatMap_eq_of_count_one (fun r => r.column) c
      (numerical_columns (e.oldSchema t) (e.newSchema t))
      (aggColumnDiscrepancies e t)
      (fun a b hb => mem_aggCol_column hb) h2
  · intro hf
    unfold aggFailed at hf
    unfold aggColumnDiscrepancies
    split at hf
    · rename_i heq
      rw [heq]
    · rename_i heq heq'
      rw [heq, heq']
    · exact absurd hf (by simp)
  · intro os oa ns na ho hn
    unfold aggColumnDiscrepancies
    rw [ho, hn]
    dsimp only
    by_cases hd : os ≠ ns ∨ oa ≠ na
    · rw [if_pos hd]
      constructor
      · exact ⟨fun _ => hd, fun _ => rfl⟩
      · constructor
        · intro hcontra; cases hcontra
        · rintro ⟨he1, he2⟩
          rcases hd with h | h
          · exact absurd he1 h
          · exact absurd he2 h
    · rw [if_neg hd]
      push_neg at hd
      constructor
      · constructor
        · intro hcontra; cases hcontra
        · intro hc
          rcases hc with h | h
          · exact absurd hd.1 h
          · exact absurd hd.2 h
      · exact ⟨fun _ => hd, fun _ => rfl⟩

/-- A concrete aggregate environment for the C7 witness: table S's
query on column X raises; table T's queries succeed with differing
SUMs. -/
def aggEnvEx : AggEnv :=
  ⟨["S", "T"],
   fun _ => [⟨"X", "NUMBER", 22⟩],
   fun _ => [⟨"X", "NUMBER", 22⟩],
   fun t _ => if t = "S" then .err "ORA-00942" else .ok (.vint 10) (.vint 5),
   fun _ _ => .ok (.vint 12) (.vint 6)⟩

/-- C7 witnessed at the failing column (S, X) of the concrete
environment. -/
theorem c7_witness :
    ((aggregate_function_validation aggEnvEx).filter
        (fun r => r.table = "S")).filter (fun r => r.column = "X") =
      aggColumnDiscrepancies aggEnvEx "S" "X" ∧
    (aggFailed aggEnvEx "S" "X" = true →
      aggColumnDiscrepancies aggEnvEx "S" "X" = [aggErrorRecord "S" "X"]) ∧
    (∀ os oa ns na, aggEnvEx.oldAgg "S" "X" = .ok os oa →
      aggEnvEx.newAgg "S" "X" = .ok ns na →
      ((aggColumnDiscrepancies aggEnvEx "S" "X" =
          [aggMismatchRecord "S" "X" os ns oa na]) ↔ (os ≠ ns ∨ oa ≠ na)) ∧
      ((aggColumnDiscrepancies aggEnvEx "S" "X" = []) ↔
        (os = ns ∧ oa = na))) :=
  c7_aggregate_validation aggEnvEx "S" "X" (by decide) (by decide)

/-- `batch_count` (source line 1335):
`len(results) // batch_size + (1 if len(results) % batch_size else 0)`. -/
def batch_count (n b : Nat) : Nat :=
  n / b + (if n % b ≠ 0 then 1 else 0)

/-- Embedding of `save_results_in_batches` (source lines 1328-1346):
the written output units in order, as (file name, batch contents)
pairs; batch i holds the slice `results[i*batch_size:(i+1)*batch_size]`
and is written to `pfx_batch_(i+1).csv`.  The default batch size is
100. -/
def save_results_in_batches {α : Type} (results : List α) (pfx : String)
    (b : Nat := 100) : List (String × List α) :=
  (List.range (batch_count results.length b)).map
    (fun i => (pfx ++ "_batch_" ++ toString (i + 1) ++ ".csv",
      (results.drop (i * b)).take b))

theorem batch_count_zero (b : Nat) : batch_count 0 b = 0 := by
  unfold batch_count
  rw [Nat.zero_div, Nat.zero_mod, if_neg (by simp)]

theorem batch_count_succ {n b : Nat} (hb : 1 ≤ b) (hn : 1 ≤ n) :
    batch_count n b = batch_count (n - b) b + 1 := by
  unfold batch_count
  by_cases hnb : b ≤ n
  · rw [Nat.div_eq_sub_div (by omega) hnb, Nat.mod_eq_sub_mod hnb]
    exact Nat.add_right_comm _ 1 _
  · have h1 : n / b = 0 := Nat.div_eq_of_lt (by omega)
    have h2 : n % b = n := Nat.mod_eq_of_lt (by omega)
    have h3 : n - b = 0 := by omega
    rw [h1, h2, h3, Nat.zero_div, Nat.zero_mod]
    rw [if_pos (by omega), if_neg (by simp)]

theorem flatten_batches {α : Type} (b : Nat) (hb : 1 ≤ b) (l : List α) :
    ((List.range (batch_count l.length b)).map
      (fun i => (l.drop (i * b)).take b)).flatten = l := by
  generalize hn : l.length = n
  induction n using Nat.strong_induction_on generalizing l with
  | _ n ih =>
    cases n with
    | zero =>
      rw [batch_count_zero]
      simp [List.length_eq_zero.mp hn]
    | succ m =>
      have hrec : batch_count (m + 1) b = batch_count (m + 1 - b) b + 1 :=
        batch_count_succ hb (by omega)
      rw [hrec, List.range_succ_eq_map, List.map_cons, List.map_map,
        List.flatten_cons]
      have hzero : (l.drop (0 * b)).take b = l.take b := by
        rw [Nat.zero_mul, List.drop_zero]
      have hlen : (l.drop b).length = m + 1 - b := by
        rw [List.length_drop, hn]
      have hcomp :
          (List.range (batch_count (m + 1 - b) b)).map
            ((fun i => (l.drop (i * b)).take b) ∘ Nat.succ) =
          (List.range (batch_count (m + 1 - b) b)).map
            (fun i => ((l.drop b).drop (i * b)).take b) := by
        refine List.map_congr_left ?_
        intro i _
        have hmul : Nat.succ i * b = i * b + b := Nat.succ_mul i b
        simp only [Function.comp_apply, hmul, List.drop_drop]
        rw [Nat.add_comm (i * b) b]
      rw [hzero, hcomp, ih (m + 1 - b) (by omega) (l.drop b) hlen]
      exact List.take_append_drop b l

/-- C8: for batch size at least 1 and a non-empty results list, the
sink partitions the results into consecutive batches of at most
batch_size records each, written to units named pfx_batch_n with n
starting at 1; concatenating the batches in order is exactly the
original results list, and the number of units is batch_count. -/
theorem c8_save_results_in_batches {α : Type} (results : List α)
    (pfx : String) (b : Nat) (hb : 1 ≤ b) (hne : results ≠ []) :
    ((save_results_in_batches results pfx b).map Prod.snd).flatten =
      results ∧
    (∀ u ∈ save_results_in_batches results pfx b, u.2.length ≤ b) ∧
    (save_results_in_batches results pfx b).map Prod.fst =
      (List.range (batch_count results.length b)).map
        (fun i => pfx ++ "_batch_" ++ toString (i + 1) ++ ".csv") ∧
    (save_results_in_batches results pfx b).length =
      batch_count results.length b := by
  refine ⟨?_, ?_, ?_, ?_⟩
  · rw [save_results_in_batches, List.map_map]
    exact flatten_batches b hb results
  · intro u hu
    rcases List.mem_map.mp hu with ⟨i, _, hi⟩
    rw [← hi]
    show ((results.drop (i * b)).take b).length ≤ b
    rw [List.length_take]
    exact min_le_left _ _
  · rw [save_results_in_batches, List.map_map]
    rfl
  · rw [save_results_in_batches, List.length_map, List.length_range]

/-- C8 witnessed: five records with batch size 2 give three units of
sizes 2, 2, 1 that concatenate back to the original list. -/
theorem c8_witness :
    ((save_results_in_batches [10, 20, 30, 40, 50] "value_by_value_check"
        2).map Prod.snd).flatten = [10, 20, 30, 40, 50] ∧
    (∀ u ∈ save_results_in_batches [10, 20, 30, 40, 50]
        "value_by_value_check" 2, u.2.length ≤ 2) ∧
    (save_results_in_batches [10, 20, 30, 40, 50] "value_by_value_check"
        2).map Prod.fst =
      (List.range (batch_count ([10, 20, 30, 40, 50] : List Nat).length 2)).map
        (fun i => "value_by_value_check" ++ "_batch_" ++ toString (i + 1)
          ++ ".csv") ∧
    (save_results_in_batches [10, 20, 30, 40, 50] "value_by_value_check"
        2).length = batch_count ([10, 20, 30, 40, 50] : List Nat).length 2 :=
  c8_save_results_in_batches [10, 20, 30, 40, 50] "value_by_value_check" 2
    (by decide) (by decide)

/-- The number of rows one call of `get_table_data` materializes in
memory: `fetchall` (source line 1319) returns the entire table. -/
def rowsFetchedAtOnce (db : String → TableData) (t : String) : Nat :=
  (get_table_data db t).2.length

/-- C9 counterexample: with chunk size 1 configured, processing the
two-row ORDERS table still materializes both rows in one fetch —
`get_table_data` runs `SELECT *` and `fetchall` with no windowing — and
the run accumulates all four discrepancy records of the table into one
list before anything is written, instead of streaming them. -/
theorem c9_counterexample :
    ¬ (rowsFetchedAtOnce ordersOldDB "ORDERS" ≤ 1) ∧
    rowsFetchedAtOnce ordersOldDB "ORDERS" = 2 ∧
    (run_value_by_value 1 ["ORDERS"] ordersOldDB ordersNewDB).length = 4 := by
  refine ⟨by decide, by decide, by decide⟩

/-- C9 amended: the row-level pass materializes every table wholesale —
the rows fetched at once equal the full table size for every database
state and table, for every chunk size there is a table whose single
fetch exceeds it, and the run returns all discrepancies as one
accumulated list (`run_value_by_value` is the unchunked
`value_by_value_check` for every chunk size). -/
theorem c9_amended :
    (∀ (db : String → TableData) (t : String),
      rowsFetchedAtOnce db t = (db t).rows.length) ∧
    (∀ cs : Nat, ∃ (db : String → TableData) (t : String),
      cs < rowsFetchedAtOnce db t) ∧
    (∀ (cs : Nat) (tables : List String) (oldDB newDB : String → TableData),
      run_value_by_value cs tables oldDB newDB =
        value_by_value_check tables oldDB newDB) := by
  refine ⟨fun db t => rfl, fun cs => ?_, fun _ _ _ _ => rfl⟩
  refine ⟨fun _ => ⟨[], List.replicate (cs + 1) []⟩, "T", ?_⟩
  show cs < (List.replicate (cs + 1) ([] : Row)).length
  rw [List.length_replicate]
  omega

end DataMigrationAudit
